import Mathlib

/-! Shallow embedding of the CHZZK streamer-blocker content scripts.

The repository consists of a content script (`src/content.js`) and two
near-duplicate variants (`src/unnamed/part_001`, `src/unnamed/part_002`)
that add a right-click blocking flow, plus a background script.

JS strings are modelled as `List Char`.  `String.prototype.toLowerCase`
is modelled on the alphabet actually used by the program (ASCII letters;
Hangul and punctuation are fixed points of `toLowerCase`), `trim` strips
the ASCII whitespace characters occurring in the program's data, and
`includes` is substring containment (the empty string is a substring of
everything, as in JS).  Regex operations (`replace` with an alternation
of literal words, `split` on a delimiter class, `match` of a bounded
character-class run) are embedded as executable functions on `List Char`
with the same leftmost-match semantics; bounded recursion is expressed
with a fuel argument equal to the string length, which is never
exhausted, so the functions compute by kernel reduction.
-/

namespace Chzzk

/-- JS strings as lists of characters. -/
abbrev JsStr := List Char

/-- Literal helper: a Lean string literal as a `JsStr`. -/
def js (s : String) : JsStr := s.data

/-- JS `String.prototype.toLowerCase`, restricted to the program's alphabet
(only ASCII letters are affected; Hangul is a fixed point). -/
def jsLower (s : JsStr) : JsStr := s.map Char.toLower

/-- The whitespace characters relevant to the program's data. -/
def isJsWs (c : Char) : Bool := c = ' ' || c = '\t' || c = '\n' || c = '\r'

/-- JS `String.prototype.trim`. -/
def jsTrim (s : JsStr) : JsStr := ((s.dropWhile isJsWs).reverse.dropWhile isJsWs).reverse

/-- JS `s.includes(pat)`: `pat` occurs as a contiguous substring of `s`.
As in JS, the empty string is included in every string. -/
def jsIncludes : JsStr → JsStr → Bool
  | [], pat => pat.isEmpty
  | c :: rest, pat => pat.isPrefixOf (c :: rest) || jsIncludes rest pat

theorem jsIncludes_iff_substring (s pat : JsStr) : jsIncludes s pat = true ↔ pat <:+: s := by
  induction s with
  | nil =>
    simp [jsIncludes, List.isEmpty_iff]
  | cons c rest ih =>
    simp [jsIncludes, ih, List.infix_cons_iff, List.isPrefixOf_iff_prefix, or_comm]

theorem jsTrim_substring (s : JsStr) : jsTrim s <:+: s := by
  have h1 : s.dropWhile isJsWs <:+ s := List.dropWhile_suffix isJsWs
  have h2 : (s.dropWhile isJsWs).reverse.dropWhile isJsWs <:+ (s.dropWhile isJsWs).reverse :=
    List.dropWhile_suffix isJsWs
  have h3 : jsTrim s <+: s.dropWhile isJsWs := by
    have h4 := List.reverse_prefix.2 h2
    simpa [jsTrim] using h4
  exact h3.isInfix.trans h1.isInfix

theorem jsIncludes_jsTrim_self (s : JsStr) : jsIncludes s (jsTrim s) = true :=
  (jsIncludes_iff_substring s (jsTrim s)).2 (jsTrim_substring s)

/-- The first pattern of the alternation `pats` that matches
case-insensitively at the start of `s` (JS regex alternation tries the
alternatives left to right), returning its length. -/
def firstAltLen (pats : List JsStr) (s : JsStr) : Option Nat :=
  pats.findSome? (fun p =>
    if !p.isEmpty && (jsLower (s.take p.length) == jsLower p) then some p.length else none)

/-- Fuel-indexed worker for `jsReplaceCI`; the fuel equals the length of
the remaining string and is never exhausted (each step consumes at least
one character). -/
def jsReplaceCIFuel : Nat → List JsStr → JsStr → JsStr
  | 0, _, s => s
  | _ + 1, _, [] => []
  | fuel + 1, pats, c :: rest =>
    match firstAltLen pats (c :: rest) with
    | some n => jsReplaceCIFuel fuel pats (rest.drop (n - 1))
    | none => c :: jsReplaceCIFuel fuel pats rest

/-- JS `s.replace(/p1|p2|.../gi, '')`: global case-insensitive deletion of
an alternation of literal words, scanning left to right and resuming
after each match. -/
def jsReplaceCI (pats : List JsStr) (s : JsStr) : JsStr :=
  jsReplaceCIFuel s.length pats s

/-- Fuel-indexed worker for `collapseWs`. -/
def collapseWsFuel : Nat → JsStr → JsStr
  | 0, s => s
  | _ + 1, [] => []
  | fuel + 1, c :: rest =>
    if isJsWs c then ' ' :: collapseWsFuel fuel (rest.dropWhile isJsWs)
    else c :: collapseWsFuel fuel rest

/-- JS `s.replace(/\s+/g, ' ')`: collapse every whitespace run to a single
space. -/
def collapseWs (s : JsStr) : JsStr := collapseWsFuel s.length s

/-- The delimiter class of the title tokenizer: `/[\s,\[\]()]+/`. -/
def isTokenDelim (c : Char) : Bool :=
  isJsWs c || c = ',' || c = '[' || c = ']' || c = '(' || c = ')'

/-- Fuel-indexed worker for `splitTokens`. -/
def splitTokensFuel : Nat → JsStr → List JsStr
  | 0, _ => []
  | _ + 1, [] => []
  | fuel + 1, c :: rest =>
    if isTokenDelim c then splitTokensFuel fuel rest
    else (c :: rest.takeWhile (fun d => !isTokenDelim d)) ::
      splitTokensFuel fuel (rest.dropWhile (fun d => !isTokenDelim d))

/-- JS `s.split(/[\s,\[\]()]+/)` as the list of maximal delimiter-free
groups.  (JS `split` additionally yields an empty first/last token when
the string starts/ends with a delimiter; those artifacts are removed by
the `length > 1` filter applied to every use of this function, so they
are not modelled.) -/
def splitTokens (s : JsStr) : List JsStr := splitTokensFuel s.length s

/-! DOM model for field extraction

A card is modelled by the list of its descendant elements in document
order (`card.querySelectorAll('*')`), each carrying its class tokens and
its (nullable) `textContent`, together with the card's own full
`textContent`. -/

/-- A descendant element of a card. -/
structure Elem where
  classes : List JsStr
  textContent : Option JsStr
deriving DecidableEq

/-- A stream card as seen by the extractor. -/
structure Card where
  descendants : List Elem
  allText : JsStr
deriving DecidableEq

/-- The record produced by `extractStreamerInfo`. -/
structure StreamerInfo where
  name : JsStr
  title : JsStr
  tags : List JsStr
deriving DecidableEq

/-- JS `element.textContent?.trim() || ''`. -/
def elemText (e : Elem) : JsStr :=
  match e.textContent with
  | some s => jsTrim s
  | none => []

/-- Source `hasClassContaining(classList, substring)`:
case-insensitive substring test against each class token. -/
def hasClassContaining (classes : List JsStr) (sub : JsStr) : Bool :=
  classes.any (fun c => jsIncludes (jsLower c) (jsLower sub))

/-- The boilerplate alternation stripped from name candidates in
`src/content.js`. -/
def namePatterns : List JsStr :=
  [js "채널로 이동", js "channel", js "live", js "LIVE", js "라이브"]

/-- The longer boilerplate alternation of the `part_001`/`part_002`
variants. -/
def namePatternsV2 : List JsStr :=
  [js "채널로 이동", js "channel", js "live", js "LIVE", js "라이브",
   js "인증 마크", js "스트리머", js "채널", js "방송"]

/-- The boilerplate alternation stripped from title candidates. -/
def titlePatterns : List JsStr :=
  [js "라이브 엔드로 이동", js "live", js "stream", js "LIVE", js "라이브"]

/-- The cleaned name candidate of one element. -/
def cleanNameOf (pats : List JsStr) (e : Elem) : JsStr :=
  jsTrim (collapseWs (jsReplaceCI pats (elemText e)))

/-- The cleaned title candidate of one element. -/
def cleanTitleOf (e : Elem) : JsStr :=
  jsTrim (collapseWs (jsReplaceCI titlePatterns (elemText e)))

/-- The state-independent guards of the name branch of the extraction
loop, flattened into one condition: non-empty element text, a
channel/name/ellipsis class, and a non-empty cleaned name of fewer
than 50 characters. -/
def nameCandidate (pats : List JsStr) (e : Elem) : Bool :=
  !(elemText e).isEmpty &&
  (hasClassContaining e.classes (js "channel") ||
   hasClassContaining e.classes (js "name") ||
   hasClassContaining e.classes (js "ellipsis")) &&
  !(cleanNameOf pats e).isEmpty && decide ((cleanNameOf pats e).length < 50)

/-- The state-independent guards of the title branch: non-empty element
text, a title class, and a non-empty cleaned title. -/
def titleCandidate (e : Elem) : Bool :=
  !(elemText e).isEmpty && hasClassContaining e.classes (js "title") &&
  !(cleanTitleOf e).isEmpty

/-- The state-independent guards of the tag branch: non-empty element
text, a tag/category/genre class, and text length 1–19. -/
def tagCandidate (e : Elem) : Bool :=
  !(elemText e).isEmpty &&
  (hasClassContaining e.classes (js "tag") ||
   hasClassContaining e.classes (js "category") ||
   hasClassContaining e.classes (js "genre")) &&
  decide (0 < (elemText e).length) && decide ((elemText e).length < 20)

/-- The name branch of the extraction loop body: the nested guards of
the source are flattened into candidate-check ∧ first-hit-wins
(`!info.name`). -/
def nameStep (pats : List JsStr) (info : StreamerInfo) (e : Elem) : StreamerInfo :=
  if nameCandidate pats e && info.name.isEmpty then
    { info with name := cleanNameOf pats e }
  else info

/-- The title branch of the extraction loop body. -/
def titleStep (info : StreamerInfo) (e : Elem) : StreamerInfo :=
  if titleCandidate e && info.title.isEmpty then { info with title := cleanTitleOf e }
  else info

/-- The tag branch of the extraction loop body: a candidate tag is the
element's trimmed text, appended when not already present. -/
def tagStep (info : StreamerInfo) (e : Elem) : StreamerInfo :=
  if tagCandidate e && !info.tags.contains (elemText e) then
    { info with tags := info.tags ++ [elemText e] }
  else info

/-- One iteration of the `src/content.js` extraction loop: the three
branches are evaluated in order on the same element. -/
def extractStep (info : StreamerInfo) (e : Elem) : StreamerInfo :=
  tagStep (titleStep (nameStep namePatterns info e) e) e

/-- The stop-word alternation used on title tokens. -/
def stopWords : List JsStr :=
  [js "the", js "and", js "or", js "in", js "on", js "at", js "to", js "for",
   js "of", js "with", js "by", js "그", js "이", js "을", js "를", js "의",
   js "에", js "는", js "가", js "한", js "수"]

/-- Regex `/^(the|and|...)$/i.test(word)`. -/
def isStopWord (w : JsStr) : Bool := stopWords.contains (jsLower w)

/-- The filtered tokens of a title: length 2–9 and not a stop word. -/
def titleWordsOf (title : JsStr) : List JsStr :=
  (splitTokens title).filter
    (fun w => decide (1 < w.length) && decide (w.length < 10) && !isStopWord w)

/-- Append a tag if not already present (`info.tags.includes` guard). -/
def pushIfAbsent (tags : List JsStr) (w : JsStr) : List JsStr :=
  if tags.contains w then tags else tags ++ [w]

/-- The extra-tags-from-title phase of extraction. -/
def addTitleTokens (info : StreamerInfo) : StreamerInfo :=
  if info.title.isEmpty then info
  else { info with tags := (titleWordsOf info.title).foldl pushIfAbsent info.tags }

/-- Regex class `[가-힣]`. -/
def isHangul (c : Char) : Bool := decide ('가' ≤ c) && decide (c ≤ '힣')

/-- Regex class `[A-Za-z]`. -/
def isLatinLetter (c : Char) : Bool :=
  (decide ('A' ≤ c) && decide (c ≤ 'Z')) || (decide ('a' ≤ c) && decide (c ≤ 'z'))

/-- Leftmost match of `/[class]{minLen,maxLen}/`: the first position
starting a run of at least `minLen` characters of the class yields the
greedy match of at most `maxLen` characters. -/
def firstRun (p : Char → Bool) (minLen maxLen : Nat) : JsStr → Option JsStr
  | [] => none
  | c :: rest =>
    if p c then
      let r := c :: rest.takeWhile p
      if decide (minLen ≤ r.length) then some (r.take maxLen)
      else firstRun p minLen maxLen rest
    else firstRun p minLen maxLen rest

/-- Generic words excluded from the Korean name fallback. -/
def koreanExcludedWords : List JsStr :=
  [js "라이브", js "채널", js "이동", js "방송", js "스트림"]

/-- Generic words excluded from the English name fallback. -/
def englishExcludedWords : List JsStr :=
  [js "LIVE", js "live", js "channel", js "stream"]

/-- The whole-card text fallback for the name: first 2–8 character
Hangul run, else first 3–15 character Latin run, each against its
exclusion list; empty when everything fails. -/
def fallbackName (allText : JsStr) : JsStr :=
  match firstRun isHangul 2 8 allText with
  | some cand => if koreanExcludedWords.contains cand then [] else cand
  | none =>
    match firstRun isLatinLetter 3 15 allText with
    | some cand => if englishExcludedWords.contains cand then [] else cand
    | none => []

/-- Source `extractStreamerInfo(card)` of `src/content.js`: one loop over all
descendants (name/title/tag branches), then extra tags from the title
tokens, then the whole-card text fallback for a still-empty name. -/
def extractStreamerInfo (card : Card) : StreamerInfo :=
  let info := card.descendants.foldl extractStep { name := [], title := [], tags := [] }
  let info := addTitleTokens info
  if info.name.isEmpty then { info with name := fallbackName card.allText } else info

/-- Source `extractStreamerInfo(card)` of the `part_001`/`part_002` variants:
a `[class*="name_text"]` element is tried first (attribute substring
match, case-sensitive), then the name loop with the longer boilerplate
list, then title/tags, title tokens, and the same fallback. -/
def extractStreamerInfoV2 (card : Card) : StreamerInfo :=
  let name0 :=
    match card.descendants.find? (fun e => e.classes.any (fun c => jsIncludes c (js "name_text"))) with
    | some e =>
      let t := elemText e
      if !t.isEmpty && decide (t.length < 50) then t else []
    | none => []
  let info1 : StreamerInfo := { name := name0, title := [], tags := [] }
  let info2 :=
    if info1.name.isEmpty then card.descendants.foldl (nameStep namePatternsV2) info1 else info1
  let info3 := card.descendants.foldl (fun i e => tagStep (titleStep i e) e) info2
  let info4 := addTitleTokens info3
  if info4.name.isEmpty then { info4 with name := fallbackName card.allText } else info4

/-! Matcher -/

/-- Source `matchesStreamer(streamerInfo, blockedName)`: bidirectional
containment between the lower-cased trimmed name and entry, or the
entry contained in the lower-cased title. -/
def matchesStreamer (info : StreamerInfo) (blockedName : JsStr) : Bool :=
  let cleanBlockedName := jsTrim (jsLower blockedName)
  let cleanStreamerName := jsTrim (jsLower info.name)
  jsIncludes cleanStreamerName cleanBlockedName ||
  jsIncludes cleanBlockedName cleanStreamerName ||
  jsIncludes (jsLower info.title) cleanBlockedName

/-- Source `matchesTag(streamerInfo, blockedTag)`: bidirectional containment
against some extracted tag, or the entry contained in the title. -/
def matchesTag (info : StreamerInfo) (blockedTag : JsStr) : Bool :=
  let cleanBlockedTag := jsTrim (jsLower blockedTag)
  info.tags.any (fun tag =>
    jsIncludes (jsLower tag) cleanBlockedTag || jsIncludes cleanBlockedTag (jsLower tag)) ||
  jsIncludes (jsLower info.title) cleanBlockedTag

/-! Settings state and the hiding decision -/

/-- The in-memory settings held by the `ChzzkStreamerBlocker` instance. -/
structure Settings where
  masterEnabled : Bool
  streamerEnabled : Bool
  tagEnabled : Bool
  blockedStreamers : List JsStr
  blockedTags : List JsStr
deriving DecidableEq

/-- The body of `shouldHideCard` after extraction: the streamer check
(early return on match), then the tag check. -/
def shouldHideInfo (st : Settings) (info : StreamerInfo) : Bool :=
  if st.streamerEnabled && decide (0 < st.blockedStreamers.length) &&
      st.blockedStreamers.any (matchesStreamer info) then true
  else if st.tagEnabled && decide (0 < st.blockedTags.length) &&
      st.blockedTags.any (matchesTag info) then true
  else false

/-- Source `shouldHideCard(card)` of `src/content.js`. -/
def shouldHideCard (st : Settings) (card : Card) : Bool :=
  shouldHideInfo st (extractStreamerInfo card)

/-! Visibility controller -/

/-- The observable state of one card's inline style and marker classes,
restricted to the properties and classes this system touches.  `none`
means the inline property is absent. -/
structure CardVis where
  display : Option String
  visibility : Option String
  opacity : Option String
  height : Option String
  width : Option String
  position : Option String
  left : Option String
  top : Option String
  processed : Bool
  hiddenMark : Bool
deriving DecidableEq

/-- A card with no inline suppression and no markers. -/
def blankVis : CardVis :=
  { display := none, visibility := none, opacity := none, height := none,
    width := none, position := none, left := none, top := none,
    processed := false, hiddenMark := false }

/-- Source `setCardVisibility(card, visible)`: marks the card processed, then
either removes all eight suppression properties and the hidden marker,
or sets all eight and the marker. -/
def setCardVisibility (_c : CardVis) (visible : Bool) : CardVis :=
  if visible then
    { display := none, visibility := none, opacity := none, height := none,
      width := none, position := none, left := none, top := none,
      processed := true, hiddenMark := false }
  else
    { display := some "none", visibility := some "hidden", opacity := some "0",
      height := some "0px", width := some "0px", position := some "absolute",
      left := some "-9999px", top := some "-9999px",
      processed := true, hiddenMark := true }

/-- The per-card effect of `showAllStreamCards()`: cards carrying the
hidden marker get only their `display` property removed and the marker
cleared; all other properties are left untouched. -/
def showAllStep (c : CardVis) : CardVis :=
  if c.hiddenMark then { c with display := none, hiddenMark := false } else c

/-! Reconciliation pass -/

/-- A card as the reconciliation pass sees it: its extractable content
and its current visual state. -/
structure PageCard where
  content : Card
  vis : CardVis
deriving DecidableEq

/-- The sum `blockedStreamers.length + blockedTags.length`. -/
def totalBlocked (st : Settings) : Nat :=
  st.blockedStreamers.length + st.blockedTags.length

/-- The per-card effect of one `applyBlocking()` pass: when the master
switch is off or the combined blocklist is empty, `showAllStreamCards`
runs; otherwise each found card is extracted, matched and its
visibility set. -/
def applyBlockingStep (st : Settings) (pc : PageCard) : PageCard :=
  if !st.masterEnabled || decide (totalBlocked st = 0) then
    { pc with vis := showAllStep pc.vis }
  else
    { pc with vis := setCardVisibility pc.vis (!shouldHideCard st pc.content) }

/-- One `applyBlocking()` pass over the cards of the document. -/
def applyBlocking (st : Settings) (cards : List PageCard) : List PageCard :=
  cards.map (applyBlockingStep st)

/-! Selector catalog (`findStreamCards`)

For the catalog the document is a flat list of elements carrying a tag
name and class tokens.  A structural query is a possibly-failing
function from the document to a list of elements: `querySelectorAll`
throws on a syntactically invalid selector, which the error value
models.  `src/content.js` evaluates the queries with no `try`/`catch`,
so `runCatalog` propagates the first error. -/

/-- A document element as seen by the selector catalog. -/
structure DElem where
  tagName : JsStr
  classes : List JsStr
deriving DecidableEq

/-- A document: its elements in document order. -/
abbrev Doc := List DElem

/-- A structural query; `Except.error` models a thrown selector
exception. -/
abbrev Query := Doc → Except String (List DElem)

/-- A total query from an element predicate (a valid selector never
throws). -/
def selQuery (pred : DElem → Bool) : Query := fun d => Except.ok (d.filter pred)

/-- Selector `.cls`: exact class-token match. -/
def hasClassToken (e : DElem) (t : JsStr) : Bool := e.classes.contains t

/-- Selector `[class*="sub"]`: substring of the class attribute.  The
patterns used contain no space, so this equals a substring of some
token. -/
def classAttrContains (e : DElem) (sub : JsStr) : Bool :=
  e.classes.any (fun c => jsIncludes c sub)

/-- The ordered selector catalog of `findStreamCards()`. -/
def findStreamCardsQueries : List Query :=
  [selQuery (fun e => hasClassToken e (js "navigation_component_item__iMPOI")),
   selQuery (fun e => e.tagName = js "li" && hasClassToken e (js "navigation_component_item__iMPOI")),
   selQuery (fun e => hasClassToken e (js "video_card_container__urjO6")),
   selQuery (fun e => classAttrContains e (js "video_card_container")),
   selQuery (fun e => classAttrContains e (js "navigation_component_item")),
   selQuery (fun e => classAttrContains e (js "live_card")),
   selQuery (fun e => classAttrContains e (js "stream_card")),
   selQuery (fun e => e.tagName = js "li" && classAttrContains e (js "item")),
   selQuery (fun e => e.tagName = js "div" && classAttrContains e (js "card")),
   selQuery (fun e => e.tagName = js "article" && classAttrContains e (js "card"))]

/-- Evaluate the catalog in order, concatenating results; a thrown
query aborts the scan (there is no per-query `try`/`catch` in the
source). -/
def runCatalog : List Query → Doc → Except String (List DElem)
  | [], _ => Except.ok []
  | q :: rest, d =>
    match q d with
    | Except.error e => Except.error e
    | Except.ok found =>
      match runCatalog rest d with
      | Except.error e => Except.error e
      | Except.ok more => Except.ok (found ++ more)

/-- Modelled from the spec: the error-handling design the spec ascribes
to the scan ("caught per-query, does not abort the remaining catalog
scan") — a failing query is skipped and the rest still run.  No such
mechanism exists in `src/`; this definition exists to be compared with
`runCatalog`. -/
def runCatalogSkipping : List Query → Doc → List DElem
  | [], _ => []
  | q :: rest, d =>
    match q d with
    | Except.error _ => runCatalogSkipping rest d
    | Except.ok found => found ++ runCatalogSkipping rest d

/-- JS `[...new Set(cards)]`: de-duplication keeping first occurrences. -/
def dedupFirst (l : List DElem) : List DElem :=
  l.foldl (fun acc e => if acc.contains e then acc else acc ++ [e]) []

/-- Source `findStreamCards()` as a possibly-failing computation. -/
def findStreamCardsE (d : Doc) : Except String (List DElem) :=
  match runCatalog findStreamCardsQueries d with
  | Except.error e => Except.error e
  | Except.ok cards => Except.ok (dedupFirst cards)

/-! Right-click toggle flows (`part_001` / `part_002`) -/

/-- The outcome of one toggle invocation: the new in-memory settings,
the storage writes performed (key and written value), and the captured
card reference after the call. -/
structure ToggleOut where
  settings : Settings
  writes : List (String × List JsStr)
  capturedCard : Option Card
deriving DecidableEq

/-- JS `indexOf` plus `splice(index, 1)`: remove the first occurrence. -/
def removeFirst : List JsStr → JsStr → List JsStr
  | [], _ => []
  | x :: xs, a => if x = a then xs else x :: removeFirst xs a

/-- Source `handleContextMenuAction()` of `part_002`: acts on the last
right-clicked card; toggles membership of the resolved name in
`blockedStreamers` (splice one if present, push if absent), writes only
the `blockedStreamers` key, and clears the captured card on the
successful path (the early returns leave it in place). -/
def handleContextMenuAction (st : Settings) (lastCard : Option Card) : ToggleOut :=
  match lastCard with
  | none => { settings := st, writes := [], capturedCard := none }
  | some card =>
    let info := extractStreamerInfoV2 card
    if info.name.isEmpty then { settings := st, writes := [], capturedCard := some card }
    else
      let bs :=
        if st.blockedStreamers.contains info.name then
          removeFirst st.blockedStreamers info.name
        else if st.blockedStreamers.contains info.name then st.blockedStreamers
        else st.blockedStreamers ++ [info.name]
      { settings := { st with blockedStreamers := bs },
        writes := [("blockedStreamers", bs)],
        capturedCard := none }

/-- Source `blockStreamerFromContext()` of `part_001`: acts on the in-page
context-menu target; pushes the resolved name if absent and writes only
the `blockedStreamers` key, but when the name is already present it
only logs — the list is not changed and nothing is written.  The
captured card is cleared elsewhere (by `hideContextMenu`), not here. -/
def blockStreamerFromContext (st : Settings) (target : Option Card) : ToggleOut :=
  match target with
  | none => { settings := st, writes := [], capturedCard := none }
  | some card =>
    let info := extractStreamerInfoV2 card
    if info.name.isEmpty then { settings := st, writes := [], capturedCard := some card }
    else if st.blockedStreamers.contains info.name then
      { settings := st, writes := [], capturedCard := some card }
    else
      { settings := { st with blockedStreamers := st.blockedStreamers ++ [info.name] },
        writes := [("blockedStreamers", st.blockedStreamers ++ [info.name])],
        capturedCard := some card }

/-! Helper lemmas -/

theorem jsIncludes_nil_right (s : JsStr) : jsIncludes s [] = true := by
  cases s <;> simp [jsIncludes]

theorem decide_pos_length {α : Type} (l : List α) : decide (0 < l.length) = !l.isEmpty := by
  cases l <;> simp

theorem any_eq_not_isEmpty {α : Type} {l : List α} {f : α → Bool}
    (h : ∀ x ∈ l, f x = true) : l.any f = !l.isEmpty := by
  cases l with
  | nil => rfl
  | cons x xs => simp [h x (by simp)]

theorem any_congr {α : Type} {l : List α} {f g : α → Bool}
    (h : ∀ x ∈ l, f x = g x) : l.any f = l.any g := by
  induction l with
  | nil => rfl
  | cons x xs ih =>
    simp only [List.any_cons, h x (by simp), ih (fun y hy => h y (by simp [hy]))]

theorem ite_ite_or (a b : Bool) :
    (if a then true else if b then true else false) = (a || b) := by
  cases a <;> cases b <;> simp

/-- Rewriting of `shouldHideInfo` as the disjunction of its two gated rules. -/
theorem shouldHideInfo_eq (st : Settings) (info : StreamerInfo) :
    shouldHideInfo st info =
      ((st.streamerEnabled && decide (0 < st.blockedStreamers.length) &&
          st.blockedStreamers.any (matchesStreamer info)) ||
       (st.tagEnabled && decide (0 < st.blockedTags.length) &&
          st.blockedTags.any (matchesTag info))) := by
  unfold shouldHideInfo
  exact ite_ite_or _ _

theorem setCardVisibility_hiddenMark (c : CardVis) (v : Bool) :
    (setCardVisibility c v).hiddenMark = !v := by
  cases v <;> rfl

theorem showAllStep_hiddenMark (c : CardVis) : (showAllStep c).hiddenMark = false := by
  by_cases h : c.hiddenMark <;> simp [showAllStep, h]

theorem showAllStep_idem (c : CardVis) : showAllStep (showAllStep c) = showAllStep c := by
  by_cases h : c.hiddenMark <;> simp [showAllStep, h]

/-- An empty extracted name matches every blocked entry: the empty
string is contained in everything. -/
theorem matchesStreamer_empty_info (b : JsStr) :
    matchesStreamer { name := [], title := [], tags := [] } b = true := by
  simp [matchesStreamer, jsTrim, jsLower, jsIncludes_nil_right]

/-- On an empty record the tag rule fires exactly for entries that trim
to the empty string. -/
theorem matchesTag_empty_info (t : JsStr) :
    matchesTag { name := [], title := [], tags := [] } t =
      (jsTrim (jsLower t)).isEmpty := by
  simp [matchesTag, jsLower, jsIncludes]

/-! Field-preservation lemmas for the extraction loop. -/

theorem nameStep_title (pats : List JsStr) (i : StreamerInfo) (e : Elem) :
    (nameStep pats i e).title = i.title := by
  unfold nameStep; split <;> rfl

theorem nameStep_tags (pats : List JsStr) (i : StreamerInfo) (e : Elem) :
    (nameStep pats i e).tags = i.tags := by
  unfold nameStep; split <;> rfl

theorem titleStep_name (i : StreamerInfo) (e : Elem) :
    (titleStep i e).name = i.name := by
  unfold titleStep; split <;> rfl

theorem titleStep_tags (i : StreamerInfo) (e : Elem) :
    (titleStep i e).tags = i.tags := by
  unfold titleStep; split <;> rfl

theorem tagStep_name (i : StreamerInfo) (e : Elem) :
    (tagStep i e).name = i.name := by
  unfold tagStep; split <;> rfl

theorem tagStep_title (i : StreamerInfo) (e : Elem) :
    (tagStep i e).title = i.title := by
  unfold tagStep; split <;> rfl

theorem nameStep_name_of_no_candidate {pats : List JsStr} {e : Elem}
    (h : nameCandidate pats e = false) (i : StreamerInfo) :
    (nameStep pats i e).name = i.name := by
  simp [nameStep, h]

theorem titleStep_title_of_no_candidate {e : Elem}
    (h : titleCandidate e = false) (i : StreamerInfo) :
    (titleStep i e).title = i.title := by
  simp [titleStep, h]

theorem tagStep_tags_of_no_candidate {e : Elem}
    (h : tagCandidate e = false) (i : StreamerInfo) :
    (tagStep i e).tags = i.tags := by
  simp [tagStep, h]

theorem extractStep_name_of_no_candidate {e : Elem}
    (h : nameCandidate namePatterns e = false) (i : StreamerInfo) :
    (extractStep i e).name = i.name := by
  unfold extractStep
  rw [tagStep_name, titleStep_name, nameStep_name_of_no_candidate h]

theorem extractStep_title_of_no_candidate {e : Elem}
    (h : titleCandidate e = false) (i : StreamerInfo) :
    (extractStep i e).title = i.title := by
  unfold extractStep
  rw [tagStep_title, titleStep_title_of_no_candidate h, nameStep_title]

theorem extractStep_tags_of_no_candidate {e : Elem}
    (h : tagCandidate e = false) (i : StreamerInfo) :
    (extractStep i e).tags = i.tags := by
  unfold extractStep
  rw [tagStep_tags_of_no_candidate h, titleStep_tags, nameStep_tags]

theorem foldl_extractStep_name {l : List Elem}
    (h : ∀ e ∈ l, nameCandidate namePatterns e = false) (i : StreamerInfo) :
    (l.foldl extractStep i).name = i.name := by
  induction l generalizing i with
  | nil => rfl
  | cons e rest ih =>
    rw [List.foldl_cons, ih (fun x hx => h x (by simp [hx])),
      extractStep_name_of_no_candidate (h e (by simp))]

theorem foldl_extractStep_title {l : List Elem}
    (h : ∀ e ∈ l, titleCandidate e = false) (i : StreamerInfo) :
    (l.foldl extractStep i).title = i.title := by
  induction l generalizing i with
  | nil => rfl
  | cons e rest ih =>
    rw [List.foldl_cons, ih (fun x hx => h x (by simp [hx])),
      extractStep_title_of_no_candidate (h e (by simp))]

theorem foldl_extractStep_tags {l : List Elem}
    (h : ∀ e ∈ l, tagCandidate e = false) (i : StreamerInfo) :
    (l.foldl extractStep i).tags = i.tags := by
  induction l generalizing i with
  | nil => rfl
  | cons e rest ih =>
    rw [List.foldl_cons, ih (fun x hx => h x (by simp [hx])),
      extractStep_tags_of_no_candidate (h e (by simp))]

theorem addTitleTokens_name (i : StreamerInfo) : (addTitleTokens i).name = i.name := by
  unfold addTitleTokens; split <;> rfl

theorem addTitleTokens_title (i : StreamerInfo) : (addTitleTokens i).title = i.title := by
  unfold addTitleTokens; split <;> rfl

/-! Tag-membership lemmas for the extraction loop. -/

theorem tagStep_tags_mono {a : JsStr} {i : StreamerInfo} (e : Elem)
    (h : a ∈ i.tags) : a ∈ (tagStep i e).tags := by
  unfold tagStep
  split
  · simpa using Or.inl h
  · exact h

theorem extractStep_tags_mono {a : JsStr} {i : StreamerInfo} (e : Elem)
    (h : a ∈ i.tags) : a ∈ (extractStep i e).tags := by
  unfold extractStep
  apply tagStep_tags_mono
  rw [titleStep_tags, nameStep_tags]
  exact h

theorem foldl_extractStep_tags_mono {a : JsStr} {l : List Elem} {i : StreamerInfo}
    (h : a ∈ i.tags) : a ∈ (l.foldl extractStep i).tags := by
  induction l generalizing i with
  | nil => exact h
  | cons e rest ih => exact ih (extractStep_tags_mono e h)

theorem tagStep_tags_mem_self {e : Elem} (h : tagCandidate e = true) (i : StreamerInfo) :
    elemText e ∈ (tagStep i e).tags := by
  unfold tagStep
  split
  · simp
  · next hc =>
    have hmm : elemText e ∈ i.tags := by simpa [h] using hc
    exact hmm

theorem foldl_extractStep_tags_mem {l : List Elem} {e : Elem}
    (hmem : e ∈ l) (hcand : tagCandidate e = true) (i : StreamerInfo) :
    elemText e ∈ (l.foldl extractStep i).tags := by
  induction l generalizing i with
  | nil => cases hmem
  | cons x rest ih =>
    rcases List.mem_cons.1 hmem with hx | hx
    · subst hx
      rw [List.foldl_cons]
      apply foldl_extractStep_tags_mono
      unfold extractStep
      apply tagStep_tags_mem_self hcand
    · exact ih hx _

theorem foldl_pushIfAbsent_mono {a : JsStr} {ws : List JsStr} {acc : List JsStr}
    (h : a ∈ acc) : a ∈ ws.foldl pushIfAbsent acc := by
  induction ws generalizing acc with
  | nil => exact h
  | cons w rest ih =>
    apply ih
    unfold pushIfAbsent
    split
    · exact h
    · simpa using Or.inl h

theorem foldl_pushIfAbsent_mem {a : JsStr} {ws : List JsStr} (acc : List JsStr)
    (h : a ∈ ws) : a ∈ ws.foldl pushIfAbsent acc := by
  induction ws generalizing acc with
  | nil => cases h
  | cons w rest ih =>
    rcases List.mem_cons.1 h with hw | hw
    · subst hw
      rw [List.foldl_cons]
      apply foldl_pushIfAbsent_mono
      unfold pushIfAbsent
      split
      · next hc => simpa using hc
      · simp
    · exact ih _ hw

theorem addTitleTokens_tags_mono {a : JsStr} {i : StreamerInfo}
    (h : a ∈ i.tags) : a ∈ (addTitleTokens i).tags := by
  unfold addTitleTokens
  split
  · exact h
  · exact foldl_pushIfAbsent_mono h

theorem addTitleTokens_tags_mem {a : JsStr} {i : StreamerInfo}
    (h : a ∈ titleWordsOf i.title) : a ∈ (addTitleTokens i).tags := by
  unfold addTitleTokens
  split
  · next he =>
    rw [List.isEmpty_iff] at he
    rw [he] at h
    cases h
  · exact foldl_pushIfAbsent_mem _ h

/-- Membership in the extracted tags makes the tag rule fire: a tag
always bidirectionally contains its own trimmed lower-casing. -/
theorem matchesTag_of_mem {t : JsStr} {info : StreamerInfo}
    (h : t ∈ info.tags) : matchesTag info t = true := by
  unfold matchesTag
  apply Bool.or_eq_true_iff.2
  left
  apply List.any_eq_true.2
  exact ⟨t, h, Bool.or_eq_true_iff.2 (Or.inl (jsIncludes_jsTrim_self (jsLower t)))⟩

/-! Concrete inputs used by the claim theorems -/

/-- A card with no descendants and no text: nothing extractable. -/
def emptyCard : Card := { descendants := [], allText := [] }

/-- The visual state `setCardVisibility(card, false)` leaves behind. -/
def hiddenVisState : CardVis := setCardVisibility blankVis false

/-- A previously-hidden card (all eight suppression properties set and
the hidden marker present). -/
def hiddenPageCard : PageCard := { content := emptyCard, vis := hiddenVisState }

/-- A state with the master switch off and a non-empty blocklist. -/
def disabledSettings : Settings :=
  { masterEnabled := false, streamerEnabled := true, tagEnabled := true,
    blockedStreamers := [js "abc"], blockedTags := [] }

/-- Master on, streamer filtering on, one blocked streamer. -/
def c2State : Settings :=
  { masterEnabled := true, streamerEnabled := true, tagEnabled := true,
    blockedStreamers := [js "abc"], blockedTags := [] }

/-! C1 -/

/-- C1: the claim says a reconciliation pass in a disabled state clears
every applied suppression property and leaves no card hidden.  This
theorem evaluates the code at the failing input: a card previously
hidden by `setCardVisibility(card, false)`, reconciled with the master
switch off, keeps `visibility:hidden`, zero opacity and size, and the
off-screen position — `showAllStreamCards` removes only the `display`
property and the marker class, so the card stays invisible. -/
theorem c1_disable_pass_keeps_suppression :
    applyBlocking disabledSettings [hiddenPageCard] =
      [{ content := emptyCard,
         vis := { display := none, visibility := some "hidden", opacity := some "0",
                  height := some "0px", width := some "0px", position := some "absolute",
                  left := some "-9999px", top := some "-9999px",
                  processed := true, hiddenMark := false } }] := by
  decide

/-! C2 -/

/-- C2 counterexample: a card whose extracted record is completely
empty is claimed to be allowed in every state; but with master on,
streamer filtering on and `blockedStreamers = ["abc"]`, the matcher
fires (the empty name is contained in every entry), `shouldHideCard`
returns true, and the pass hides the card. -/
theorem c2_counterexample :
    extractStreamerInfo emptyCard = { name := [], title := [], tags := [] } ∧
    matchesStreamer { name := [], title := [], tags := [] } (js "abc") = true ∧
    shouldHideCard c2State emptyCard = true ∧
    (applyBlocking c2State [{ content := emptyCard, vis := blankVis }]).map
        (fun pc => pc.vis.hiddenMark) = [true] :=
  ⟨by decide, by decide, by decide, by decide⟩

/-- C2 amended: a card with a completely empty extracted record never
raises an error, and after a reconciliation pass it is hidden exactly
when the master switch is on and either (streamer filtering is on with
a non-empty `blockedStreamers` — the empty name matches every entry) or
(tag filtering is on and some blocked tag trims to the empty string);
in particular it is left visible whenever `blockedStreamers` is empty
and every blocked tag is non-blank. -/
theorem c2_amended_empty_record (st : Settings) :
    (applyBlockingStep st { content := emptyCard, vis := blankVis }).vis.hiddenMark =
      (st.masterEnabled &&
        ((st.streamerEnabled && !st.blockedStreamers.isEmpty) ||
         (st.tagEnabled && st.blockedTags.any (fun t => (jsTrim (jsLower t)).isEmpty)))) := by
  unfold applyBlockingStep
  cases hm : st.masterEnabled with
  | false => simp [hm, showAllStep_hiddenMark]
  | true =>
    have hs : st.blockedStreamers.any (matchesStreamer { name := [], title := [], tags := [] }) =
        !st.blockedStreamers.isEmpty :=
      any_eq_not_isEmpty (fun b _ => matchesStreamer_empty_info b)
    have ht : st.blockedTags.any (matchesTag { name := [], title := [], tags := [] }) =
        st.blockedTags.any (fun t => (jsTrim (jsLower t)).isEmpty) :=
      any_congr (fun t _ => matchesTag_empty_info t)
    by_cases h0 : totalBlocked st = 0
    · have hlen : st.blockedStreamers.length + st.blockedTags.length = 0 := by
        simpa [totalBlocked] using h0
      have hbs : st.blockedStreamers = [] := List.length_eq_zero.1 (by omega)
      have hbt : st.blockedTags = [] := List.length_eq_zero.1 (by omega)
      simp [hm, h0, showAllStep_hiddenMark, hbs, hbt]
    · have hshc : shouldHideCard st emptyCard =
          ((st.streamerEnabled && !st.blockedStreamers.isEmpty) ||
           (st.tagEnabled && st.blockedTags.any (fun t => (jsTrim (jsLower t)).isEmpty))) := by
        unfold shouldHideCard
        have hext : extractStreamerInfo emptyCard = { name := [], title := [], tags := [] } := rfl
        rw [hext, shouldHideInfo_eq]
        simp only [decide_pos_length, hs, ht]
        have e1 : (st.streamerEnabled && !st.blockedStreamers.isEmpty &&
            !st.blockedStreamers.isEmpty) = (st.streamerEnabled && !st.blockedStreamers.isEmpty) := by
          cases st.blockedStreamers <;> simp
        have e2 : (st.tagEnabled && !st.blockedTags.isEmpty &&
              st.blockedTags.any (fun t => (jsTrim (jsLower t)).isEmpty)) =
            (st.tagEnabled && st.blockedTags.any (fun t => (jsTrim (jsLower t)).isEmpty)) := by
          cases st.blockedTags <;> simp
        rw [e1, e2]
      simp [hm, h0, setCardVisibility_hiddenMark, hshc]

/-! C3 -/

/-- Modelled from the claim's wording of the streamer rule: lowercase
containment in the three stated directions, with no trimming of the
blocked entry or of the extracted name.  To be compared with
`matchesStreamer`, which trims both. -/
def claimedStreamerRule (info : StreamerInfo) (b : JsStr) : Bool :=
  jsIncludes (jsLower info.name) (jsLower b) ||
  jsIncludes (jsLower b) (jsLower info.name) ||
  jsIncludes (jsLower info.title) (jsLower b)

/-- C3 counterexample: with blocked entry `" xyz "` (surrounding
whitespace) and extracted name `"xyz123"`, the code's streamer rule
fires (it trims the entry to `"xyz"` first), but the claimed
lowercase-containment formula does not — so the claimed "if and only
if" is false. -/
theorem c3_counterexample :
    matchesStreamer { name := js "xyz123", title := [], tags := [] } (js " xyz ") = true ∧
    claimedStreamerRule { name := js "xyz123", title := [], tags := [] } (js " xyz ") = false :=
  ⟨by decide, by decide⟩

/-- C3 amended: the code first trims the lowercased entry and the
lowercased name; whenever both are already trim-invariant the streamer
rule coincides with the claimed three-way containment formula, and the
claim's two examples hold: entry `"abc"` fires on name `"abc123"`, and
entry `"xyz"` does not fire on name `"abc"` with an empty title. -/
theorem c3_amended_streamer_rule :
    (∀ (info : StreamerInfo) (b : JsStr),
      jsTrim (jsLower b) = jsLower b →
      jsTrim (jsLower info.name) = jsLower info.name →
      matchesStreamer info b = claimedStreamerRule info b) ∧
    matchesStreamer { name := js "abc123", title := [], tags := [] } (js "abc") = true ∧
    matchesStreamer { name := js "abc", title := [], tags := [] } (js "xyz") = false := by
  refine ⟨fun info b hb hn => ?_, by decide, by decide⟩
  simp [matchesStreamer, claimedStreamerRule, hb, hn]

/-- C3 witness: the amended equivalence applied at a concrete
trim-invariant record and entry. -/
theorem c3_amended_witness :
    matchesStreamer { name := js "nova", title := js "chat", tags := [] } (js "abc") =
      claimedStreamerRule { name := js "nova", title := js "chat", tags := [] } (js "abc") :=
  c3_amended_streamer_rule.1 { name := js "nova", title := js "chat", tags := [] } (js "abc")
    (by decide) (by decide)

/-! C4 -/

/-- C4: after one reconciliation pass a card carries the hidden marker
iff the master switch is on and (streamer filtering is on with a
non-empty blocklist and some entry matching the extracted record, or
tag filtering is on with a non-empty tag list and some entry matching);
a category whose switch is off or whose list is empty never contributes
to hiding. -/
theorem c4_hidden_iff (st : Settings) (pc : PageCard) :
    (applyBlockingStep st pc).vis.hiddenMark =
      (st.masterEnabled &&
        ((st.streamerEnabled && !st.blockedStreamers.isEmpty &&
            st.blockedStreamers.any (matchesStreamer (extractStreamerInfo pc.content))) ||
         (st.tagEnabled && !st.blockedTags.isEmpty &&
            st.blockedTags.any (matchesTag (extractStreamerInfo pc.content))))) := by
  unfold applyBlockingStep
  cases hm : st.masterEnabled with
  | false => simp [hm, showAllStep_hiddenMark]
  | true =>
    by_cases h0 : totalBlocked st = 0
    · have hlen : st.blockedStreamers.length + st.blockedTags.length = 0 := by
        simpa [totalBlocked] using h0
      have hbs : st.blockedStreamers = [] := List.length_eq_zero.1 (by omega)
      have hbt : st.blockedTags = [] := List.length_eq_zero.1 (by omega)
      simp [hm, h0, showAllStep_hiddenMark, hbs, hbt]
    · have hshc : shouldHideCard st pc.content =
          ((st.streamerEnabled && !st.blockedStreamers.isEmpty &&
              st.blockedStreamers.any (matchesStreamer (extractStreamerInfo pc.content))) ||
           (st.tagEnabled && !st.blockedTags.isEmpty &&
              st.blockedTags.any (matchesTag (extractStreamerInfo pc.content)))) := by
        unfold shouldHideCard
        rw [shouldHideInfo_eq]
        simp only [decide_pos_length]
      simp [hm, h0, setCardVisibility_hiddenMark, hshc]

/-! C5 -/

/-- C5: `setCardVisibility` is idempotent — applying the same
visibility twice leaves the card in the same observable state as
applying it once — and consequently a reconciliation pass run twice on
an unchanged document and unchanged state equals a single pass. -/
theorem c5_idempotent :
    (∀ (c : CardVis) (v : Bool),
      setCardVisibility (setCardVisibility c v) v = setCardVisibility c v) ∧
    (∀ (st : Settings) (cards : List PageCard),
      applyBlocking st (applyBlocking st cards) = applyBlocking st cards) := by
  constructor
  · intro c v
    cases v <;> rfl
  · intro st cards
    unfold applyBlocking
    rw [List.map_map]
    apply List.map_congr_left
    intro pc _
    show applyBlockingStep st (applyBlockingStep st pc) = applyBlockingStep st pc
    unfold applyBlockingStep
    split
    · simp [showAllStep_idem]
    · rfl

/-! C6 -/

/-- A query that throws, modelling `querySelectorAll` on a
malformed/unsupported selector. -/
def failingQuery : Query := fun _ => Except.error "SyntaxError: unsupported selector"

/-- An element matched by the fallback `li[class*="item"]` query. -/
def liItemElem : DElem := { tagName := js "li", classes := [js "item_box"] }

/-- A single working query. -/
def okQuery : Query := selQuery (fun e => classAttrContains e (js "item"))

/-- A one-element document. -/
def docOneCard : Doc := [liItemElem]

/-- C6 counterexample: the claim says a failing structural query is
skipped and the remaining queries still run.  The code's scan has no
per-query catch: with a failing query followed by a working one, the
scan aborts with the error and loses the working query's results,
whereas the spec-modelled skipping scan returns them. -/
theorem c6_counterexample :
    runCatalog [failingQuery, okQuery] docOneCard =
      Except.error "SyntaxError: unsupported selector" ∧
    runCatalogSkipping [failingQuery, okQuery] docOneCard = [liItemElem] :=
  ⟨rfl, by decide⟩

/-- C6 amended: `findStreamCards` never throws on any document — not
because failures are skipped, but because its fixed catalog consists of
ten total queries (valid selector literals) that cannot fail. -/
theorem c6_amended_never_throws (d : Doc) :
    ∃ cards, findStreamCardsE d = Except.ok cards :=
  ⟨_, rfl⟩

/-! Structure lemmas for `extractStreamerInfo` -/

theorem extractStreamerInfo_tags (card : Card) :
    (extractStreamerInfo card).tags =
      (addTitleTokens (card.descendants.foldl extractStep
        { name := [], title := [], tags := [] })).tags := by
  simp only [extractStreamerInfo]
  split <;> rfl

theorem extractStreamerInfo_title (card : Card) :
    (extractStreamerInfo card).title =
      (card.descendants.foldl extractStep { name := [], title := [], tags := [] }).title := by
  simp only [extractStreamerInfo]
  split <;> rw [addTitleTokens_title]

/-! C7 -/

/-- A card resolving to the streamer name `"Foo"` through the
`name_text` heuristic of the `part_001`/`part_002` extractor. -/
def fooCard : Card :=
  { descendants := [{ classes := [js "name_text_x"], textContent := some (js "Foo") }],
    allText := js "Foo" }

/-- A state in which `"Foo"` is already blocked. -/
def c7State : Settings :=
  { masterEnabled := true, streamerEnabled := true, tagEnabled := true,
    blockedStreamers := [js "Foo"], blockedTags := [] }

/-- A state with an empty blocklist. -/
def noneBlockedState : Settings :=
  { masterEnabled := true, streamerEnabled := true, tagEnabled := true,
    blockedStreamers := [], blockedTags := [] }

/-- C7 counterexample: for a card whose resolved name `"Foo"` is
already in `blockedStreamers`, the claim says the right-click toggle
removes exactly one matching entry; but the `part_001` handler
(`blockStreamerFromContext`) only logs in that case — the list is left
unchanged and nothing is written. -/
theorem c7_counterexample :
    (extractStreamerInfoV2 fooCard).name = js "Foo" ∧
    c7State.blockedStreamers = [js "Foo"] ∧
    (blockStreamerFromContext c7State (some fooCard)).settings.blockedStreamers = [js "Foo"] ∧
    (blockStreamerFromContext c7State (some fooCard)).writes = [] :=
  ⟨by decide, rfl, by decide, by decide⟩

theorem count_removeFirst {l : List JsStr} {a : JsStr} (h : a ∈ l) :
    (removeFirst l a).count a = l.count a - 1 := by
  induction l with
  | nil => cases h
  | cons x xs ih =>
    by_cases hx : x = a
    · subst hx
      simp [removeFirst, List.count_cons]
    · have hmem : a ∈ xs := by
        rcases List.mem_cons.1 h with h1 | h1
        · exact absurd h1.symm hx
        · exact h1
      simp [removeFirst, hx, List.count_cons, ih hmem, Ne.symm hx]

/-- C7 amended: for a card resolving to a non-empty name `n` —
(1) if `n` is absent, both handlers append `n` exactly once;
(2) if `n` is present, the native-menu handler
(`handleContextMenuAction`, `part_002`) removes exactly one matching
entry, while the in-page handler (`blockStreamerFromContext`,
`part_001`) leaves the list unchanged (it never removes);
(3) and (4): invoking either handler twice in immediate succession
changes nothing further — `handleContextMenuAction` clears the
captured card on success, and `blockStreamerFromContext` finds the name
already present — so no duplicate entry is ever created. -/
theorem c7_amended_toggle (st : Settings) (card : Card) (n : JsStr)
    (hn : (extractStreamerInfoV2 card).name = n) :
    (n ≠ [] → st.blockedStreamers.contains n = false →
      (handleContextMenuAction st (some card)).settings.blockedStreamers =
          st.blockedStreamers ++ [n] ∧
      (blockStreamerFromContext st (some card)).settings.blockedStreamers =
          st.blockedStreamers ++ [n]) ∧
    (n ≠ [] → st.blockedStreamers.contains n = true →
      (handleContextMenuAction st (some card)).settings.blockedStreamers =
          removeFirst st.blockedStreamers n ∧
      (removeFirst st.blockedStreamers n).count n = st.blockedStreamers.count n - 1 ∧
      (blockStreamerFromContext st (some card)).settings = st) ∧
    ((handleContextMenuAction (handleContextMenuAction st (some card)).settings
        (handleContextMenuAction st (some card)).capturedCard).settings =
      (handleContextMenuAction st (some card)).settings) ∧
    ((blockStreamerFromContext (blockStreamerFromContext st (some card)).settings
        (some card)).settings =
      (blockStreamerFromContext st (some card)).settings) := by
  refine ⟨fun hne hc => ?_, fun hne hc => ?_, ?_, ?_⟩
  · have hie : n.isEmpty = false := by
      cases n
      · exact absurd rfl hne
      · rfl
    have hcm : n ∉ st.blockedStreamers := by simpa using hc
    constructor
    · simp [handleContextMenuAction, hn, hie, hcm]
    · simp [blockStreamerFromContext, hn, hie, hcm]
  · have hie : n.isEmpty = false := by
      cases n
      · exact absurd rfl hne
      · rfl
    have hmem : n ∈ st.blockedStreamers := by simpa using hc
    refine ⟨?_, count_removeFirst hmem, ?_⟩
    · simp [handleContextMenuAction, hn, hie, hmem]
    · simp [blockStreamerFromContext, hn, hie, hmem]
  · by_cases he : (extractStreamerInfoV2 card).name.isEmpty = true
    · simp [handleContextMenuAction, he]
    · simp only [Bool.not_eq_true] at he
      by_cases hc : (extractStreamerInfoV2 card).name ∈ st.blockedStreamers <;>
        simp [handleContextMenuAction, he, hc]
  · by_cases he : (extractStreamerInfoV2 card).name.isEmpty = true
    · simp [blockStreamerFromContext, he]
    · simp only [Bool.not_eq_true] at he
      by_cases hc : (extractStreamerInfoV2 card).name ∈ st.blockedStreamers
      · simp [blockStreamerFromContext, he, hc]
      · have hc2 : (extractStreamerInfoV2 card).name ∈
            st.blockedStreamers ++ [(extractStreamerInfoV2 card).name] := by
          simp
        simp [blockStreamerFromContext, he, hc, hc2]

/-- C7 witness: the amended toggle behaviour applied at concrete
inputs: blocking the unblocked `"Foo"` appends it once, and the
native-menu handler removes the already-present `"Foo"`. -/
theorem c7_amended_witness :
    (handleContextMenuAction noneBlockedState (some fooCard)).settings.blockedStreamers =
        [js "Foo"] ∧
    (handleContextMenuAction c7State (some fooCard)).settings.blockedStreamers = [] := by
  constructor
  · have h := (c7_amended_toggle noneBlockedState fooCard (js "Foo") (by decide)).1
      (by decide) (by decide)
    simpa using h.1
  · have h := (c7_amended_toggle c7State fooCard (js "Foo") (by decide)).2.1
      (by decide) (by decide)
    rw [h.1]
    decide

/-! C8 -/

/-- A card with one descendant matching none of the extraction
heuristics, and card text matching neither fallback pattern. -/
def dullCard : Card :=
  { descendants := [{ classes := [js "thumbnail__x"], textContent := some (js "!!") }],
    allText := js "!!" }

/-- C8: `extractStreamerInfo` is a total function (it never throws —
every partial DOM access in the source is guarded, which the embedding
reflects by being definable without an error monad), it always returns
a fully-populated record, and every field with no successful source
keeps its initial empty value: no name candidate and a failed fallback
give `name = ""`, no title candidate gives `title = ""`, and no title
and no tag candidate give `tags = []`. -/
theorem c8_extraction_defaults (card : Card) :
    (card.descendants.all (fun e => !nameCandidate namePatterns e) = true →
      fallbackName card.allText = [] →
      (extractStreamerInfo card).name = []) ∧
    (card.descendants.all (fun e => !titleCandidate e) = true →
      (extractStreamerInfo card).title = []) ∧
    (card.descendants.all (fun e => !titleCandidate e) = true →
      card.descendants.all (fun e => !tagCandidate e) = true →
      (extractStreamerInfo card).tags = []) := by
  refine ⟨fun h hf => ?_, fun h => ?_, fun h htag => ?_⟩
  · have hall : ∀ e ∈ card.descendants, nameCandidate namePatterns e = false := by
      intro e he
      have := List.all_eq_true.1 h e he
      simpa using this
    have h1 : (card.descendants.foldl extractStep
        { name := [], title := [], tags := [] }).name = [] :=
      foldl_extractStep_name hall _
    have h2 : (addTitleTokens (card.descendants.foldl extractStep
        { name := [], title := [], tags := [] })).name = [] := by
      rw [addTitleTokens_name]; exact h1
    simp only [extractStreamerInfo]
    rw [if_pos (by simp [h2])]
    exact hf
  · have hall : ∀ e ∈ card.descendants, titleCandidate e = false := by
      intro e he
      have := List.all_eq_true.1 h e he
      simpa using this
    rw [extractStreamerInfo_title]
    exact foldl_extractStep_title hall _
  · have hallT : ∀ e ∈ card.descendants, titleCandidate e = false := by
      intro e he
      have := List.all_eq_true.1 h e he
      simpa using this
    have hallG : ∀ e ∈ card.descendants, tagCandidate e = false := by
      intro e he
      have := List.all_eq_true.1 htag e he
      simpa using this
    have ht : (card.descendants.foldl extractStep
        { name := [], title := [], tags := [] }).title = [] :=
      foldl_extractStep_title hallT _
    have hg : (card.descendants.foldl extractStep
        { name := [], title := [], tags := [] }).tags = [] :=
      foldl_extractStep_tags hallG _
    rw [extractStreamerInfo_tags]
    unfold addTitleTokens
    rw [if_pos (by simp [ht])]
    exact hg

/-- C8 witness: the defaults theorem applied to a concrete card with a
single unextractable descendant. -/
theorem c8_extraction_defaults_witness :
    (extractStreamerInfo dullCard).name = [] ∧
    (extractStreamerInfo dullCard).title = [] ∧
    (extractStreamerInfo dullCard).tags = [] :=
  ⟨(c8_extraction_defaults dullCard).1 (by decide) (by decide),
   (c8_extraction_defaults dullCard).2.1 (by decide),
   (c8_extraction_defaults dullCard).2.2 (by decide) (by decide)⟩

/-! C9 -/

/-- A card with a title element (yielding title tokens) and a verbatim
tag element. -/
def tagCard : Card :=
  { descendants :=
      [{ classes := [js "video_card_title__abc"],
         textContent := some (js "fun game [horror] time") },
       { classes := [js "tag_item__zz"], textContent := some (js "공포") }],
    allText := js "Nova" }

/-- A state blocking the tag `"공포"` with all switches on. -/
def tagState : Settings :=
  { masterEnabled := true, streamerEnabled := true, tagEnabled := true,
    blockedStreamers := [], blockedTags := [js "공포"] }

/-- C9: with the master and tag switches on and `t ∈ blockedTags`, each
tag source is individually sufficient: a verbatim tag equal to `t`
extracted from a tag/category/genre-labelled element, or a filtered
title token equal to `t`, ends up in the record's tags, fires
`matchesTag`, and makes the reconciliation pass hide the card. -/
theorem c9_tag_union (st : Settings) (card : Card) (t : JsStr) (vis : CardVis)
    (hm : st.masterEnabled = true) (hte : st.tagEnabled = true) (hbt : t ∈ st.blockedTags)
    (hsrc : (∃ e ∈ card.descendants, tagCandidate e = true ∧ elemText e = t) ∨
      t ∈ titleWordsOf (extractStreamerInfo card).title) :
    t ∈ (extractStreamerInfo card).tags ∧
    matchesTag (extractStreamerInfo card) t = true ∧
    (applyBlockingStep st { content := card, vis := vis }).vis.hiddenMark = true := by
  have hmem : t ∈ (extractStreamerInfo card).tags := by
    rcases hsrc with ⟨e, he, hcand, het⟩ | htok
    · rw [extractStreamerInfo_tags]
      apply addTitleTokens_tags_mono
      exact het ▸ foldl_extractStep_tags_mem he hcand _
    · rw [extractStreamerInfo_title] at htok
      rw [extractStreamerInfo_tags]
      exact addTitleTokens_tags_mem htok
  have hmatch : matchesTag (extractStreamerInfo card) t = true := matchesTag_of_mem hmem
  refine ⟨hmem, hmatch, ?_⟩
  have hnz : ¬(totalBlocked st = 0) := by
    have hpos : 0 < st.blockedTags.length := List.length_pos.2 (List.ne_nil_of_mem hbt)
    unfold totalBlocked
    omega
  unfold applyBlockingStep
  rw [if_neg (by simp [hm, hnz])]
  simp only [setCardVisibility_hiddenMark, Bool.not_not]
  unfold shouldHideCard
  rw [shouldHideInfo_eq]
  apply Bool.or_eq_true_iff.2
  right
  have hpos : 0 < st.blockedTags.length := List.length_pos.2 (List.ne_nil_of_mem hbt)
  have hany : st.blockedTags.any (matchesTag (extractStreamerInfo card)) = true :=
    List.any_eq_true.2 ⟨t, hbt, hmatch⟩
  simp [hte, hpos, hany]

/-- C9 witness: both sources at concrete inputs: the verbatim tag
element `"공포"` on `tagCard`, blocked in `tagState`, hides the card. -/
theorem c9_tag_union_witness :
    (js "공포") ∈ (extractStreamerInfo tagCard).tags ∧
    matchesTag (extractStreamerInfo tagCard) (js "공포") = true ∧
    (applyBlockingStep tagState { content := tagCard, vis := blankVis }).vis.hiddenMark = true :=
  c9_tag_union tagState tagCard (js "공포") blankVis rfl rfl (by decide)
    (Or.inl ⟨{ classes := [js "tag_item__zz"], textContent := some (js "공포") },
      by decide, by decide, by decide⟩)

/-! C10 -/

/-- C10: both right-click toggle handlers modify only the
`blockedStreamers` component of the settings: the three enable flags
and `blockedTags` are unchanged in memory, and every storage write they
perform is to the `blockedStreamers` key. -/
theorem c10_toggle_frame (st : Settings) (oc : Option Card) :
    ((handleContextMenuAction st oc).settings.masterEnabled = st.masterEnabled ∧
     (handleContextMenuAction st oc).settings.streamerEnabled = st.streamerEnabled ∧
     (handleContextMenuAction st oc).settings.tagEnabled = st.tagEnabled ∧
     (handleContextMenuAction st oc).settings.blockedTags = st.blockedTags ∧
     (handleContextMenuAction st oc).writes.all (fun w => w.1 == "blockedStreamers") = true) ∧
    ((blockStreamerFromContext st oc).settings.masterEnabled = st.masterEnabled ∧
     (blockStreamerFromContext st oc).settings.streamerEnabled = st.streamerEnabled ∧
     (blockStreamerFromContext st oc).settings.tagEnabled = st.tagEnabled ∧
     (blockStreamerFromContext st oc).settings.blockedTags = st.blockedTags ∧
     (blockStreamerFromContext st oc).writes.all (fun w => w.1 == "blockedStreamers") = true) := by
  cases oc with
  | none => simp [handleContextMenuAction, blockStreamerFromContext]
  | some card =>
    by_cases he : (extractStreamerInfoV2 card).name.isEmpty = true
    · simp [handleContextMenuAction, blockStreamerFromContext, he]
    · simp only [Bool.not_eq_true] at he
      by_cases hc : (extractStreamerInfoV2 card).name ∈ st.blockedStreamers <;>
        simp [handleContextMenuAction, blockStreamerFromContext, he, hc]

end Chzzk
